import Mathlib

/-!
Verification of the Product Hunt market-scanner core (`server.js`, the
GraphQL revision): the candidate keyword filter inside `searchProductHunt`,
the scoring engine `scoreProducts`, and `generateJustification`.

Strings are modelled as lists of characters; JS numbers appearing in the
scoring arithmetic are modelled as exact rationals, counts as naturals.
Record fields that the code defends with `|| 0`, `|| ''` or `?.` are
modelled as `Option` values; `o.getD d` renders the JS `x || d` defaulting
(for string/number defaults the falsy cases agree).
-/

namespace Scanner

/-- A JS string, as its list of characters. -/
abbrev Str := List Char

/-- JS `s.toLowerCase()`, applied per character. -/
def lowerStr (s : Str) : Str := s.map Char.toLower

/-- JS `s.split(' ')`: split at every single space, keeping empty pieces. -/
def splitSp : Str → List Str
  | [] => [[]]
  | c :: cs =>
    if c = ' ' then [] :: splitSp cs
    else
      match splitSp cs with
      | [] => [[c]]
      | w :: ws => (c :: w) :: ws

/-- Does `s` begin with `p`? (Helper for the substring test.) -/
def startsWithL : Str → Str → Bool
  | _, [] => true
  | [], _ :: _ => false
  | c :: s, d :: p => if c = d then startsWithL s p else false

/-- JS `s.includes(p)`: does `p` occur in `s` as a contiguous substring? -/
def containsL : Str → Str → Bool
  | [], p => startsWithL [] p
  | c :: s, p => startsWithL (c :: s) p || containsL s p

/-- JS `parts.join(' ')`. -/
def joinSp : List Str → Str
  | [] => []
  | [w] => w
  | w :: ws => w ++ ' ' :: joinSp ws

/-- One Product Hunt post, as consumed by the filter and the scoring engine.
Every field may be absent, matching the defensive `|| 0` / `|| ''` / `?.`
accesses in the source; `topics` collapses the GraphQL `edges`/`node`
wrappers to the list of topic names. -/
structure ProductRecord where
  name : Option Str
  tagline : Option Str
  description : Option Str
  topics : Option (List Str)
  votesCount : Option Nat
  reviewsCount : Option Nat
  reviewsRating : Option ℚ

/-- Output element of `scoreProducts`: the JS code spreads the input record
(`...product`) and adds `score` and `relevanceScore`. -/
structure RankedResult where
  product : ProductRecord
  score : ℚ
  relevanceScore : ℕ

/-- Tokenization `criteria.toLowerCase().split(' ').filter(w => w.length > 2)`
(identical in `searchProductHunt` line 256 and `scoreProducts` line 278). -/
def keywords (criteria : Str) : List Str :=
  (splitSp (lowerStr criteria)).filter (fun w => 2 < w.length)

/-- JS template-literal interpolation of a possibly-missing field: an absent
value prints as the literal text `undefined` (`searchProductHunt` line 259
interpolates `post.name` and `post.tagline` without a default). -/
def interpOpt (o : Option Str) : Str := o.getD ("undefined".toList)

/-- Joined topic names `post.topics?.edges?.map(e => e.node.name.toLowerCase()).join(' ') || ''`
(lines 260 and 289, identical in both places). -/
def topicsText (post : ProductRecord) : Str :=
  (post.topics.map (fun ts => joinSp (ts.map lowerStr))).getD []

/-- Combined text `post.name`, `post.tagline`, `post.description || ''`, joined
by single spaces via the template literal of line 259, then lowercased. -/
def searchText (post : ProductRecord) : Str :=
  lowerStr (interpOpt post.name ++ ' ' ::
    (interpOpt post.tagline ++ ' ' :: post.description.getD []))

/-- Search text followed by a space and the joined topics (line 261). -/
def fullText (post : ProductRecord) : Str :=
  searchText post ++ ' ' :: topicsText post

/-- The candidate filter inside `searchProductHunt` (lines 255-264):
keep the posts in which some keyword occurs in the combined text. -/
def relevantPosts (posts : List ProductRecord) (criteria : Str) : List ProductRecord :=
  posts.filter (fun post =>
    (keywords criteria).any (fun keyword => containsL (fullText post) keyword))

/-- Lowercased name `(product.name || '').toLowerCase()` (line 286). -/
def nameL (p : ProductRecord) : Str := lowerStr (p.name.getD [])

/-- Lowercased tagline `(product.tagline || '').toLowerCase()` (line 287). -/
def taglineL (p : ProductRecord) : Str := lowerStr (p.tagline.getD [])

/-- Lowercased description `(product.description || '').toLowerCase()` (line 288). -/
def descriptionL (p : ProductRecord) : Str := lowerStr (p.description.getD [])

/-- Relevance points one keyword contributes (lines 292-297):
`+40` name, `+25` tagline, `+10` description, `+15` topics. -/
def relTerm (p : ProductRecord) (w : Str) : ℕ :=
  (if containsL (nameL p) w then 40 else 0) +
  (if containsL (taglineL p) w then 25 else 0) +
  (if containsL (descriptionL p) w then 10 else 0) +
  (if containsL (topicsText p) w then 15 else 0)

/-- Total `relevanceScore`: the `forEach` accumulation over the keywords
(lines 291-297). -/
def relevanceScore (criteria : Str) (p : ProductRecord) : ℕ :=
  ((keywords criteria).map (relTerm p)).sum

/-- Number of individual field-keyword hits counted by the same four
conditions the source tests (the spec calls this `keywordMatches`; the code
checks the conditions but does not store the count). -/
def relTermCount (p : ProductRecord) (w : Str) : ℕ :=
  (if containsL (nameL p) w then 1 else 0) +
  (if containsL (taglineL p) w then 1 else 0) +
  (if containsL (descriptionL p) w then 1 else 0) +
  (if containsL (topicsText p) w then 1 else 0)

/-- Total keyword-match count of a record. -/
def matchCount (criteria : Str) (p : ProductRecord) : ℕ :=
  ((keywords criteria).map (relTermCount p)).sum

/-- Votes contribution `Math.min(votesCount / 10, 30)` (line 300). -/
def votesScore (p : ProductRecord) : ℚ :=
  min ((p.votesCount.getD 0 : ℚ) / 10) 30

/-- Review contribution `reviewsCount > 0 ? Math.min(reviewsCount * 2, 25) : 0` (line 301). -/
def reviewScore (p : ProductRecord) : ℚ :=
  if 0 < p.reviewsCount.getD 0 then min ((p.reviewsCount.getD 0 : ℚ) * 2) 25 else 0

/-- Rating contribution `reviewsRating > 0 ? reviewsRating * 5 : 0` (line 302). -/
def ratingScore (p : ProductRecord) : ℚ :=
  if 0 < p.reviewsRating.getD 0 then p.reviewsRating.getD 0 * 5 else 0

/-- Bonus `votesCount > 500 ? 20 : votesCount > 200 ? 10 : 0` (line 303). -/
def popularityBonus (p : ProductRecord) : ℚ :=
  if 500 < p.votesCount.getD 0 then 20 else if 200 < p.votesCount.getD 0 then 10 else 0

/-- The four popularity contributions, summed in source order. -/
def popScore (p : ProductRecord) : ℚ :=
  votesScore p + reviewScore p + ratingScore p + popularityBonus p

/-- Raw score `votesScore + reviewScore + ratingScore + popularityBonus +
relevanceScore` (line 305). -/
def rawScore (criteria : Str) (p : ProductRecord) : ℚ :=
  popScore p + (relevanceScore criteria p : ℚ)

/-- Normalized score `totalScore = Math.min((rawScore / 170) * 100, 100)`
(line 307). -/
def scoreVal (criteria : Str) (p : ProductRecord) : ℚ :=
  min (rawScore criteria p / 170 * 100) 100

/-- The body of the `products.map` in `scoreProducts` (lines 280-313):
spread the record and attach `score` and `relevanceScore`. -/
def scoreRecord (criteria : Str) (p : ProductRecord) : RankedResult :=
  ⟨p, scoreVal criteria p, relevanceScore criteria p⟩

/-- The ordering realised by `.sort((a, b) => b.score - a.score)`:
descending score. -/
def byScoreDesc (a b : RankedResult) : Prop := b.score ≤ a.score

instance : DecidableRel byScoreDesc :=
  fun a b => inferInstanceAs (Decidable (b.score ≤ a.score))

instance : IsTotal RankedResult byScoreDesc :=
  ⟨fun a b => le_total b.score a.score⟩

instance : IsTrans RankedResult byScoreDesc :=
  ⟨fun _ _ _ hab hbc => le_trans hbc hab⟩

/-- Scoring engine `scoreProducts` (lines 276-315): score every record, then
sort by descending score (a stable sort, as ECMAScript requires). -/
def scoreProducts (products : List ProductRecord) (criteria : Str) : List RankedResult :=
  List.insertionSort byScoreDesc (products.map (scoreRecord criteria))

/-- Composition run by `/api/scan` (lines 362-372): the candidate filter of
`searchProductHunt` followed by `scoreProducts`. -/
def scanPipeline (posts : List ProductRecord) (criteria : Str) : List RankedResult :=
  scoreProducts (relevantPosts posts criteria) criteria

/-- A record with every optional field replaced by its explicit default. -/
def fillDefaults (p : ProductRecord) : ProductRecord :=
  ⟨some (p.name.getD []), some (p.tagline.getD []), some (p.description.getD []),
   some (p.topics.getD []), some (p.votesCount.getD 0), some (p.reviewsCount.getD 0),
   some (p.reviewsRating.getD 0)⟩

/-- Output of `generateJustification`. -/
structure Justification where
  score : ℤ
  highlight : Str
  reasons : List Str
  medal : Str

/-- JS `Math.round`: round half away from zero upward. -/
def roundJS (q : ℚ) : ℤ := ⌊q + 1 / 2⌋

/-- Medal table `['🥇', '🥈', '🥉']` (line 339). -/
def medals : List Str := ["🥇".toList, "🥈".toList, "🥉".toList]

/-- Decimal rendering of a count (`toLocaleString` is abstracted to plain
decimal digits; no claim touches the digits). -/
def natText (n : ℕ) : Str := (toString n).toList

/-- Rendering of a rational in an interpolated reason string (abstracted
to `toString`; no claim touches the digits). -/
def ratText (q : ℚ) : Str := (toString q).toList

/-- Highlight `product.tagline || product.description?.substring(0, 150) || ...`
(line 340), with JS `||` treating the empty string as falsy. -/
def highlightOf (p : ProductRecord) : Str :=
  match p.tagline with
  | some t => if t = [] then highlightFallback p else t
  | none => highlightFallback p
where
  highlightFallback (p : ProductRecord) : Str :=
    match p.description with
    | some d => if d.take 150 = [] then "Innovative solution for your needs.".toList
                else d.take 150
    | none => "Innovative solution for your needs.".toList

/-- Justification generator `generateJustification(product, rank)`
(lines 318-348). The medal is `medals[rank - 1] || ''`: an out-of-range index
reads `undefined`, which the `|| ''` turns into the empty string. -/
def generateJustification (product : RankedResult) (rank : ℤ) : Justification :=
  let p := product.product
  let votes := p.votesCount.getD 0
  let revs := p.reviewsCount.getD 0
  let rating := p.reviewsRating.getD 0
  let reasons : List Str :=
    (if 0 < votes then [natText votes ++ " upvotes from Product Hunt community".toList]
     else []) ++
    (if 0 < revs ∧ 0 < rating then
       [ratText rating ++ "/5 rating from ".toList ++ natText revs ++ " reviews".toList]
     else if 0 < revs then [natText revs ++ " user reviews".toList]
     else []) ++
    [if 500 < votes then "Highly popular choice in the community".toList
     else if 200 < votes then "Well-regarded by users".toList
     else "Trusted by early adopters".toList]
  { score := roundJS product.score
    highlight := highlightOf p
    reasons := reasons
    medal := if 0 ≤ rank - 1 ∧ rank - 1 < 3 then medals.getD (rank - 1).toNat [] else [] }

/-- The Asana record from the spec example (`popularityCount` is
`votesCount`, `ratingValue` is `reviewsRating`, `ratingCount` is
`reviewsCount`). -/
def asana : ProductRecord :=
  ⟨some "Asana".toList, some "project management for teams".toList,
   none, none, some 1200, some 300, some (9 / 2 : ℚ)⟩

/-- The Random App record from the spec example. -/
def randomApp : ProductRecord :=
  ⟨some "Random App".toList, some [], some [], none, some 5000, some 5, some 5⟩

/-- A twin of `asana` with the same popularity metrics and no keyword
matches. -/
def asanaNoMatch : ProductRecord :=
  ⟨some "Zzz".toList, some [], none, none, some 1200, some 300, some (9 / 2 : ℚ)⟩

/-- A record whose `name` field is missing and whose other text fields do
not mention the criteria. -/
def recNoName : ProductRecord :=
  ⟨none, some "xy".toList, none, none, none, none, none⟩

/-- A record of maximal popularity whose every text field holds the words
`project management`. -/
def recMax : ProductRecord :=
  ⟨some "project management".toList, some "project management".toList,
   some "project management".toList, some ["project management".toList],
   some 1000, some 100, some 5⟩

/-- The example criteria from the spec. -/
def cPM : Str := "project management tool".toList

/-- A two-keyword criteria. -/
def cPM2 : Str := "project management".toList

/-- A criteria whose single usable token is the word `undefined`. -/
def cUndef : Str := "undefined".toList

/-- A criteria all of whose words are at most two characters long. -/
def cAB : Str := "ab".toList

/-! ## Supporting lemmas -/

theorem splitSp_ne_nil (s : Str) : splitSp s ≠ [] := by
  cases s with
  | nil => simp [splitSp]
  | cons c cs =>
    rw [splitSp]
    split
    · simp
    · split <;> simp

theorem not_space_of_mem_splitSp {s w : Str} (hw : w ∈ splitSp s) : ' ' ∉ w := by
  induction s generalizing w with
  | nil =>
    simp [splitSp] at hw
    subst hw; simp
  | cons c cs ih =>
    rw [splitSp] at hw
    by_cases hc : c = ' '
    · rw [if_pos hc] at hw
      rcases List.mem_cons.mp hw with h | h
      · subst h; simp
      · exact ih h
    · rw [if_neg hc] at hw
      cases hsp : splitSp cs with
      | nil => exact absurd hsp (splitSp_ne_nil cs)
      | cons v vs =>
        rw [hsp] at hw
        rcases List.mem_cons.mp hw with h | h
        · subst h
          intro hmem
          rcases List.mem_cons.mp hmem with h1 | h1
          · exact hc h1.symm
          · exact ih (hsp ▸ List.mem_cons_self v vs) h1
        · exact ih (hsp ▸ List.mem_cons_of_mem v h)

theorem startsWithL_iff {s p : Str} : startsWithL s p = true ↔ p <+: s := by
  induction p generalizing s with
  | nil => simp [startsWithL]
  | cons d p ih =>
    cases s with
    | nil => simp [startsWithL]
    | cons c s =>
      rw [startsWithL]
      constructor
      · intro h
        split at h
        · next hcd => exact List.cons_prefix_cons.mpr ⟨hcd.symm, ih.mp h⟩
        · exact absurd h (by simp)
      · intro h
        rcases List.cons_prefix_cons.mp h with ⟨hdc, htail⟩
        rw [if_pos hdc.symm]
        exact ih.mpr htail

theorem containsL_iff {s p : Str} : containsL s p = true ↔ p <:+: s := by
  induction s with
  | nil =>
    rw [containsL, startsWithL_iff]
    constructor
    · intro h; exact h.isInfix
    · intro h; exact (List.infix_nil.mp h) ▸ List.nil_prefix
  | cons c s ih =>
    rw [containsL, Bool.or_eq_true, startsWithL_iff, ih, List.infix_cons_iff]

theorem prefix_drop_sep {p a b : Str} {c : Char} (hc : c ∉ p) (h : p <+: a ++ c :: b) :
    p <+: a := by
  induction p generalizing a with
  | nil => exact List.nil_prefix
  | cons x p ih =>
    cases a with
    | nil =>
      rw [List.nil_append] at h
      rcases List.cons_prefix_cons.mp h with ⟨hx, -⟩
      subst hx
      exact absurd (List.mem_cons_self x p) hc
    | cons y a =>
      rw [List.cons_append] at h
      rcases List.cons_prefix_cons.mp h with ⟨hx, h2⟩
      exact List.cons_prefix_cons.mpr
        ⟨hx, ih (fun hm => hc (List.mem_cons_of_mem x hm)) h2⟩

theorem infix_split_sep {p b : Str} {c : Char} (hc : c ∉ p) :
    ∀ {a : Str}, p <:+: a ++ c :: b → p <:+: a ∨ p <:+: b := by
  intro a h
  obtain ⟨s, t, hst⟩ := h
  induction a generalizing s with
  | nil =>
    rw [List.nil_append] at hst
    cases s with
    | nil =>
      rw [List.nil_append] at hst
      cases p with
      | nil => exact Or.inl (List.nil_infix)
      | cons z p =>
        rw [List.cons_append] at hst
        injection hst with h1 h2
        cases h1
        exact absurd (List.mem_cons_self _ _) hc
    | cons y s =>
      rw [List.cons_append, List.cons_append] at hst
      injection hst with h1 h2
      exact Or.inr ⟨s, t, by simpa using h2⟩
  | cons x a ih =>
    cases s with
    | nil =>
      rw [List.nil_append] at hst
      cases p with
      | nil => exact Or.inl (List.nil_infix)
      | cons z p =>
        rw [List.cons_append, List.cons_append] at hst
        injection hst with h1 h2
        subst h1
        have hpre : p <+: a ++ c :: b := ⟨t, h2⟩
        have hp : p <+: a := prefix_drop_sep (fun hm => hc (List.mem_cons_of_mem z hm)) hpre
        exact Or.inl (List.IsPrefix.isInfix (List.cons_prefix_cons.mpr ⟨rfl, hp⟩))
    | cons y s =>
      rw [List.cons_append, List.cons_append, List.cons_append] at hst
      injection hst with h1 h2
      rcases ih s (by simpa using h2) with h | h
      · exact Or.inl (List.infix_cons_iff.mpr (Or.inr h))
      · exact Or.inr h

theorem relTerm_ge (p : ProductRecord) (w : Str) : 10 * relTermCount p w ≤ relTerm p w := by
  rw [relTerm, relTermCount]
  cases h1 : containsL (nameL p) w <;> cases h2 : containsL (taglineL p) w <;>
    cases h3 : containsL (descriptionL p) w <;> cases h4 : containsL (topicsText p) w <;>
    simp

theorem relevance_ge_matchCount (c : Str) (p : ProductRecord) :
    10 * matchCount c p ≤ relevanceScore c p := by
  rw [matchCount, relevanceScore]
  induction keywords c with
  | nil => simp
  | cons w ws ih =>
    simp only [List.map_cons, List.sum_cons, Nat.mul_add]
    have := relTerm_ge p w
    omega

theorem relTerm_eq_zero {p : ProductRecord} {w : Str} (h : relTermCount p w = 0) :
    relTerm p w = 0 := by
  rw [relTermCount] at h
  rw [relTerm]
  cases h1 : containsL (nameL p) w <;> cases h2 : containsL (taglineL p) w <;>
    cases h3 : containsL (descriptionL p) w <;> cases h4 : containsL (topicsText p) w <;>
    simp_all

theorem relevance_eq_zero {c : Str} {p : ProductRecord} (h : matchCount c p = 0) :
    relevanceScore c p = 0 := by
  rw [matchCount, List.sum_eq_zero_iff] at h
  rw [relevanceScore, List.sum_eq_zero_iff]
  intro x hx
  obtain ⟨w, hw, rfl⟩ := List.mem_map.mp hx
  exact relTerm_eq_zero (h _ (List.mem_map_of_mem _ hw))

theorem relTerm_pos {p : ProductRecord} {w : Str}
    (h : containsL (nameL p) w = true ∨ containsL (taglineL p) w = true ∨
      containsL (descriptionL p) w = true ∨ containsL (topicsText p) w = true) :
    0 < relTerm p w := by
  rw [relTerm]
  rcases h with h | h | h | h <;> rw [h] <;> simp

theorem fullText_eq {p : ProductRecord} {n t : Str} (hn : p.name = some n)
    (ht : p.tagline = some t) :
    fullText p = nameL p ++ ' ' ::
      (taglineL p ++ ' ' :: (descriptionL p ++ ' ' :: topicsText p)) := by
  have hsp : Char.toLower ' ' = ' ' := by decide
  simp [fullText, searchText, interpOpt, nameL, taglineL, descriptionL, lowerStr,
    hn, ht, hsp, List.map_append, List.append_assoc]

theorem relevance_pos_of_kept {posts : List ProductRecord} {c : Str} {p : ProductRecord}
    (hn : p.name.isSome) (ht : p.tagline.isSome)
    (hp : p ∈ relevantPosts posts c) : 0 < relevanceScore c p := by
  obtain ⟨n, hn⟩ := Option.isSome_iff_exists.mp hn
  obtain ⟨t, ht⟩ := Option.isSome_iff_exists.mp ht
  rw [relevantPosts, List.mem_filter] at hp
  obtain ⟨-, hpred⟩ := hp
  rw [List.any_eq_true] at hpred
  obtain ⟨w, hw, hcont⟩ := hpred
  have hwsp : ' ' ∉ w := not_space_of_mem_splitSp (List.mem_of_mem_filter hw)
  rw [containsL_iff, fullText_eq hn ht] at hcont
  have hterm : 0 < relTerm p w := by
    rcases infix_split_sep hwsp hcont with h1 | hrest
    · exact relTerm_pos (Or.inl (containsL_iff.mpr h1))
    · rcases infix_split_sep hwsp hrest with h2 | hrest2
      · exact relTerm_pos (Or.inr (Or.inl (containsL_iff.mpr h2)))
      · rcases infix_split_sep hwsp hrest2 with h3 | h4
        · exact relTerm_pos (Or.inr (Or.inr (Or.inl (containsL_iff.mpr h3))))
        · exact relTerm_pos (Or.inr (Or.inr (Or.inr (containsL_iff.mpr h4))))
  calc 0 < relTerm p w := hterm
    _ ≤ relevanceScore c p :=
      List.single_le_sum (fun x _ => Nat.zero_le x) _ (List.mem_map_of_mem _ hw)

theorem votesScore_nonneg (p : ProductRecord) : 0 ≤ votesScore p :=
  le_min (by positivity) (by norm_num)

theorem votesScore_le (p : ProductRecord) : votesScore p ≤ 30 := min_le_right _ _

theorem reviewScore_nonneg (p : ProductRecord) : 0 ≤ reviewScore p := by
  rw [reviewScore]
  split_ifs
  · exact le_min (by positivity) (by norm_num)
  · norm_num

theorem reviewScore_le (p : ProductRecord) : reviewScore p ≤ 25 := by
  rw [reviewScore]
  split_ifs
  · exact min_le_right _ _
  · norm_num

theorem ratingScore_nonneg (p : ProductRecord) : 0 ≤ ratingScore p := by
  rw [ratingScore]
  split_ifs with h
  · linarith
  · norm_num

theorem ratingScore_le {p : ProductRecord} (h : p.reviewsRating.getD 0 ≤ 5) :
    ratingScore p ≤ 25 := by
  rw [ratingScore]
  split_ifs with h2
  · linarith
  · norm_num

theorem popularityBonus_nonneg (p : ProductRecord) : 0 ≤ popularityBonus p := by
  rw [popularityBonus]; split_ifs <;> norm_num

theorem popularityBonus_le (p : ProductRecord) : popularityBonus p ≤ 20 := by
  rw [popularityBonus]; split_ifs <;> norm_num

theorem popScore_nonneg (p : ProductRecord) : 0 ≤ popScore p := by
  rw [popScore]
  linarith [votesScore_nonneg p, reviewScore_nonneg p, ratingScore_nonneg p,
    popularityBonus_nonneg p]

theorem popScore_le {p : ProductRecord} (h : p.reviewsRating.getD 0 ≤ 5) :
    popScore p ≤ 100 := by
  rw [popScore]
  linarith [votesScore_le p, reviewScore_le p, ratingScore_le h, popularityBonus_le p]

theorem rawScore_nonneg (c : Str) (p : ProductRecord) : 0 ≤ rawScore c p := by
  rw [rawScore]
  have := popScore_nonneg p
  positivity

theorem scoreVal_nonneg (c : Str) (p : ProductRecord) : 0 ≤ scoreVal c p := by
  rw [scoreVal]
  have := rawScore_nonneg c p
  exact le_min (by positivity) (by norm_num)

theorem scoreVal_le_100 (c : Str) (p : ProductRecord) : scoreVal c p ≤ 100 :=
  min_le_right _ _

theorem mem_scoreProducts {ps : List ProductRecord} {c : Str} {r : RankedResult} :
    r ∈ scoreProducts ps c ↔ ∃ p ∈ ps, r = scoreRecord c p := by
  rw [scoreProducts, List.mem_insertionSort, List.mem_map]
  constructor
  · rintro ⟨p, hp, rfl⟩; exact ⟨p, hp, rfl⟩
  · rintro ⟨p, hp, rfl⟩; exact ⟨p, hp, rfl⟩

theorem scoreVal_asana : scoreVal cPM asana = 1475 / 17 := by
  have hrel : relevanceScore cPM asana = 50 := by decide
  rw [scoreVal, rawScore, popScore, votesScore, reviewScore, ratingScore,
    popularityBonus, hrel]
  norm_num [asana, min_def]

theorem scoreVal_randomApp : scoreVal cPM randomApp = 50 := by
  have hrel : relevanceScore cPM randomApp = 0 := by decide
  rw [scoreVal, rawScore, popScore, votesScore, reviewScore, ratingScore,
    popularityBonus, hrel]
  norm_num [randomApp, min_def]


theorem topicsText_fill (p : ProductRecord) : topicsText (fillDefaults p) = topicsText p := by
  rw [topicsText, topicsText, fillDefaults]
  cases p.topics <;> simp [joinSp]

theorem nameL_fill (p : ProductRecord) : nameL (fillDefaults p) = nameL p := rfl

theorem taglineL_fill (p : ProductRecord) : taglineL (fillDefaults p) = taglineL p := rfl

theorem descriptionL_fill (p : ProductRecord) :
    descriptionL (fillDefaults p) = descriptionL p := rfl

theorem popScore_fill (p : ProductRecord) : popScore (fillDefaults p) = popScore p := rfl

theorem relTerm_fill (p : ProductRecord) (w : Str) :
    relTerm (fillDefaults p) w = relTerm p w := by
  rw [relTerm, relTerm, topicsText_fill, nameL_fill, taglineL_fill, descriptionL_fill]

theorem relevance_fill (c : Str) (p : ProductRecord) :
    relevanceScore c (fillDefaults p) = relevanceScore c p := by
  rw [relevanceScore, relevanceScore]
  exact congrArg List.sum (List.map_congr_left (fun w _ => relTerm_fill p w))

/-! ## Claims -/

/-- C1: for every list of product records and every criteria string, every
score in the list returned by the scoring engine `scoreProducts` lies
between 0 and 100 inclusive. -/
theorem C1_score_within_bounds (ps : List ProductRecord) (c : Str) (r : RankedResult)
    (hr : r ∈ scoreProducts ps c) : 0 ≤ r.score ∧ r.score ≤ 100 := by
  obtain ⟨p, -, rfl⟩ := mem_scoreProducts.mp hr
  exact ⟨scoreVal_nonneg c p, scoreVal_le_100 c p⟩

/-- Witness for C1 at the Asana record and the example criteria. -/
theorem C1_score_within_bounds_witness :
    0 ≤ (scoreRecord cPM asana).score ∧ (scoreRecord cPM asana).score ≤ 100 :=
  C1_score_within_bounds [asana] cPM (scoreRecord cPM asana)
    (mem_scoreProducts.mpr ⟨asana, List.mem_singleton.mpr rfl, rfl⟩)

/-- C2 (counterexample): with criteria `undefined` — one usable token — a
record whose `name` field is missing and whose text fields hold no token
passes the candidate filter, because the template literal interpolates the
missing field as the text `undefined`; the ranked pipeline output therefore
contains a record with `relevanceScore = 0` although the token set is
non-empty. -/
theorem C2_zero_relevance_in_output :
    keywords cUndef ≠ [] ∧
      (scanPipeline [recNoName] cUndef).map (fun r => r.relevanceScore) = [0] :=
  ⟨by decide, rfl⟩

/-- C2 (amended): for every record list whose records all carry `name` and
`tagline`, and every criteria with a non-empty usable token set, every
record of the ranked pipeline output has positive `relevanceScore`;
equivalently, records with `relevanceScore = 0` are absent from it. -/
theorem C2_zero_relevance_excluded (posts : List ProductRecord) (c : Str)
    (hk : keywords c ≠ [])
    (hfields : ∀ p ∈ posts, p.name.isSome ∧ p.tagline.isSome) :
    ∀ r ∈ scanPipeline posts c, 0 < r.relevanceScore := by
  intro r hr
  rw [scanPipeline] at hr
  obtain ⟨p, hp, rfl⟩ := mem_scoreProducts.mp hr
  have hp2 := hp
  rw [relevantPosts] at hp2
  obtain ⟨hn, ht⟩ := hfields p (List.mem_of_mem_filter hp2)
  exact relevance_pos_of_kept hn ht hp

/-- Witness for C2 at the Asana record and the example criteria. -/
theorem C2_zero_relevance_excluded_witness :
    0 < (scoreRecord cPM asana).relevanceScore :=
  C2_zero_relevance_excluded [asana] cPM (by decide) (by decide) (scoreRecord cPM asana)
    (by rw [show scanPipeline [asana] cPM = [scoreRecord cPM asana] from rfl]
        exact List.mem_singleton.mpr rfl)

/-- C3 (counterexample): with criteria `ab` every whitespace-separated word
is at most the minimum length, so the usable token set is empty; the
pipeline then returns the empty list — the candidate record does not pass
through to the ranked output, contrary to the claim that all candidates
pass. -/
theorem C3_not_all_pass_through :
    keywords cAB = [] ∧ scanPipeline [asana] cAB = [] ∧
      ¬ ∃ r ∈ scanPipeline [asana] cAB, r.product = asana :=
  ⟨by decide, rfl, by simp [show scanPipeline [asana] cAB = [] from rfl]⟩

/-- C3 (amended): if the criteria tokenizes to an empty usable-token set,
the candidate filter rejects every record (`some` over an empty keyword set
is false for each post), so the pipeline output is empty rather than
containing all candidates ranked by rating/popularity. -/
theorem C3_empty_tokens_empty_output (posts : List ProductRecord) (c : Str)
    (hk : keywords c = []) : scanPipeline posts c = [] := by
  rw [scanPipeline, relevantPosts, hk]
  simp [scoreProducts, List.insertionSort]

/-- Witness for C3 at criteria `ab` and a singleton record list. -/
theorem C3_empty_tokens_empty_output_witness :
    keywords cAB = [] ∧ scanPipeline [randomApp] cAB = [] :=
  ⟨by decide, C3_empty_tokens_empty_output [randomApp] cAB (by decide)⟩

/-- C4: the scoring engine is deterministic — two calls with identical
record lists and criteria strings return identical scores and ordering, and
every output element is the value of the pure per-record function
`scoreRecord` at its own record and the criteria alone (no hidden state, no
other input). -/
theorem C4_deterministic :
    (∀ (ps₁ ps₂ : List ProductRecord) (c₁ c₂ : Str), ps₁ = ps₂ → c₁ = c₂ →
      scoreProducts ps₁ c₁ = scoreProducts ps₂ c₂) ∧
    (∀ (ps : List ProductRecord) (c : Str), ∀ r ∈ scoreProducts ps c,
      r = scoreRecord c r.product) := by
  constructor
  · rintro ps₁ ps₂ c₁ c₂ rfl rfl; rfl
  · intro ps c r hr
    obtain ⟨p, -, rfl⟩ := mem_scoreProducts.mp hr
    rfl

/-- Witness for C4 at the Asana record and the example criteria. -/
theorem C4_deterministic_witness :
    scoreProducts [asana] cPM = scoreProducts [asana] cPM ∧
      scoreRecord cPM asana = scoreRecord cPM (scoreRecord cPM asana).product :=
  ⟨C4_deterministic.1 [asana] [asana] cPM cPM rfl rfl,
   C4_deterministic.2 [asana] cPM (scoreRecord cPM asana)
     (mem_scoreProducts.mpr ⟨asana, List.mem_singleton.mpr rfl, rfl⟩)⟩

/-- C5: relevance dominates popularity — for a non-empty token set, of two
records with equal popularity metrics (votes, review count, and a rating on
the documented 0-5 scale) where record A has at least 2 keyword matches and
record B has 0, A's score is strictly greater than B's; and on the spec's
concrete example the Asana record ranks first, above the more popular
Random App record, under criteria `project management tool`. -/
theorem C5_relevance_dominates :
    (∀ (c : Str) (A B : ProductRecord), keywords c ≠ [] →
      A.votesCount = B.votesCount → A.reviewsCount = B.reviewsCount →
      A.reviewsRating = B.reviewsRating → B.reviewsRating.getD 0 ≤ 5 →
      2 ≤ matchCount c A → matchCount c B = 0 →
      (scoreRecord c B).score < (scoreRecord c A).score) ∧
    (scoreProducts [randomApp, asana] cPM).map (fun r => r.product.name) =
      [some "Asana".toList, some "Random App".toList] := by
  constructor
  · intro c A B hk hv hrc hrr hr5 hA hB
    show scoreVal c B < scoreVal c A
    have hpop : popScore A = popScore B := by
      rw [popScore, popScore, votesScore, votesScore, reviewScore, reviewScore,
        ratingScore, ratingScore, popularityBonus, popularityBonus, hv, hrc, hrr]
    have hrelB : relevanceScore c B = 0 := relevance_eq_zero hB
    have hrelA : (20 : ℚ) ≤ (relevanceScore c A : ℚ) := by
      have h10 := relevance_ge_matchCount c A
      have h20 : 20 ≤ relevanceScore c A := by omega
      exact_mod_cast h20
    have hble : popScore B ≤ 100 := popScore_le hr5
    have hb0 : 0 ≤ popScore B := popScore_nonneg B
    rw [scoreVal, scoreVal, rawScore, rawScore, hpop, hrelB]
    rw [min_eq_left (by push_cast; linarith)]
    apply lt_min
    · push_cast
      linarith
    · push_cast
      linarith
  · have horder : scoreProducts [randomApp, asana] cPM =
        [scoreRecord cPM asana, scoreRecord cPM randomApp] := by
      have hlt : ¬ byScoreDesc (scoreRecord cPM randomApp) (scoreRecord cPM asana) := by
        rw [byScoreDesc]
        show ¬ scoreVal cPM asana ≤ scoreVal cPM randomApp
        rw [scoreVal_asana, scoreVal_randomApp]
        norm_num
      simp [scoreProducts, List.insertionSort, List.orderedInsert, hlt]
    rw [horder]
    rfl

/-- Witness for C5 at the Asana record and a no-match twin of it with
identical popularity metrics. -/
theorem C5_relevance_dominates_witness :
    (scoreRecord cPM asanaNoMatch).score < (scoreRecord cPM asana).score :=
  C5_relevance_dominates.1 cPM asana asanaNoMatch (by decide) rfl rfl rfl
    (by norm_num [asanaNoMatch]) (by decide) (by decide)

/-- C6 (counterexample): the raw score is not bounded by the normalizing
constant 170 — a maximally popular record whose four text fields all match
the two usable tokens of `project management` reaches a raw score above
170 (in fact 280). -/
theorem C6_raw_exceeds_constant : (170 : ℚ) < rawScore cPM2 recMax := by
  have hrel : relevanceScore cPM2 recMax = 180 := by decide
  rw [rawScore, popScore, votesScore, reviewScore, ratingScore, popularityBonus, hrel]
  norm_num [recMax, min_def]

/-- C6 (amended): the constant 170 is not the theoretical maximum
achievable raw score — `rawScore` exceeds it on a concrete record and
criteria — and every final score nevertheless stays at most 100, but only
because of the explicit `min` clamp in the normalization. -/
theorem C6_clamped_normalization :
    (170 : ℚ) < rawScore cPM2 recMax ∧
      ∀ (c : Str) (p : ProductRecord), (scoreRecord c p).score ≤ 100 := by
  constructor
  · have hrel : relevanceScore cPM2 recMax = 180 := by decide
    rw [rawScore, popScore, votesScore, reviewScore, ratingScore, popularityBonus, hrel]
    norm_num [recMax, min_def]
  · exact fun c p => scoreVal_le_100 c p

/-- C7: for every record list and criteria, the list returned by
`scoreProducts` is sorted in descending (non-increasing) order of score. -/
theorem C7_sorted_descending (ps : List ProductRecord) (c : Str) :
    List.Sorted byScoreDesc (scoreProducts ps c) := by
  rw [scoreProducts]
  exact List.sorted_insertionSort byScoreDesc _

/-- C8: the scoring engine is total over its input domain (the embedding
returns a value for every record list and criteria by construction, with no
failure case), and any missing record field behaves exactly as its
zero/empty default: replacing every absent field by that default changes
neither the score nor the relevance score of any record. -/
theorem C8_missing_fields_defaulted (c : Str) (p : ProductRecord) :
    (scoreRecord c (fillDefaults p)).score = (scoreRecord c p).score ∧
      (scoreRecord c (fillDefaults p)).relevanceScore =
        (scoreRecord c p).relevanceScore := by
  constructor
  · show scoreVal c (fillDefaults p) = scoreVal c p
    rw [scoreVal, scoreVal, rawScore, rawScore, relevance_fill, popScore_fill]
  · exact relevance_fill c p

/-- C9: `generateJustification` assigns rank 1 the fixed first-place medal,
and the empty string to every rank outside 1, 2, 3 — including 4, 0 and
negative ranks. -/
theorem C9_medal_by_rank (p : RankedResult) (r : ℤ)
    (h1 : r ≠ 1) (h2 : r ≠ 2) (h3 : r ≠ 3) :
    (generateJustification p 1).medal = "🥇".toList ∧
      (generateJustification p r).medal = [] := by
  constructor
  · rfl
  · rw [generateJustification]
    simp only
    rw [if_neg]
    omega

/-- Witness for C9 at a concrete ranked record and rank 4. -/
theorem C9_medal_by_rank_witness :
    (generateJustification (scoreRecord cPM asana) 1).medal = "🥇".toList ∧
      (generateJustification (scoreRecord cPM asana) 4).medal = [] :=
  C9_medal_by_rank (scoreRecord cPM asana) 4 (by decide) (by decide) (by decide)

/-- C10: the scoring engine by itself never adds or drops records — the
output of `scoreProducts` has exactly the length of its input, is a
permutation of the per-record scoring map over the input, and each output
element derives from exactly one input record. -/
theorem C10_length_preserved (ps : List ProductRecord) (c : Str) :
    (scoreProducts ps c).length = ps.length ∧
      List.Perm (scoreProducts ps c) (ps.map (scoreRecord c)) ∧
      ∀ r ∈ scoreProducts ps c, ∃ p ∈ ps, r = scoreRecord c p := by
  refine ⟨?_, ?_, ?_⟩
  · rw [scoreProducts, List.length_insertionSort, List.length_map]
  · exact List.perm_insertionSort _ _
  · intro r hr
    exact mem_scoreProducts.mp hr

/-- Witness for C10 at a singleton record list. -/
theorem C10_length_preserved_witness :
    ∃ p ∈ [asana], scoreRecord cPM asana = scoreRecord cPM p :=
  (C10_length_preserved [asana] cPM).2.2 (scoreRecord cPM asana)
    (mem_scoreProducts.mpr ⟨asana, List.mem_singleton.mpr rfl, rfl⟩)

end Scanner
